import Mathlib

/-!
Shallow embedding of the Universal Home Plan Modeler editor core
(`src/App.tsx`, `src/types.ts`, `src/components/InspectorPanel.tsx`).

Numbers are modelled as exact rationals (`ℚ`); `Math.round` is modelled as
`jsRound q = ⌊q + 1/2⌋`, which agrees with JavaScript's round-half-up
behaviour. Pointer handlers are modelled as pure state transformers over an
`AppState` record mirroring the React component state; a DOM event stream is a
`List Event` folded through `step`.
-/

/-- 2D point, world or viewport coordinates (`src/types.ts` `Point`). -/
structure Point where
  x : ℚ
  y : ℚ
  deriving DecidableEq, Repr

/-- `WallFeature.type` field values (`src/types.ts`). -/
inductive FeatureType
  | door
  | window
  deriving DecidableEq, Repr

/-- `WallFeature.wall` field values (`src/types.ts`). -/
inductive Wall
  | top
  | bottom
  | left
  | right
  deriving DecidableEq, Repr

/-- A door or window on a room wall (`src/types.ts` `WallFeature`). -/
structure WallFeature where
  id : String
  type : FeatureType
  wall : Wall
  position : ℚ
  width : ℚ
  deriving DecidableEq, Repr

/-- A rectangular room (`src/types.ts` `Room`).  `locked?: boolean` is
modelled as a plain `Bool` (absent = `false`, which is how every consumer in
`App.tsx` treats it). -/
structure Room where
  id : String
  x : ℚ
  y : ℚ
  width : ℚ
  height : ℚ
  name : String
  color : String
  zIndex : ℚ
  features : List WallFeature
  locked : Bool
  deriving DecidableEq, Repr

/-- `GRID_SIZE` constant (`App.tsx` line 22). -/
def GRID_SIZE : ℚ := 10

/-- JavaScript `Math.round`: round half toward positive infinity. -/
def jsRound (q : ℚ) : ℤ := ⌊q + 1/2⌋

/-- `snapToGrid` (`App.tsx` line 23): `Math.round(value / GRID_SIZE) * GRID_SIZE`. -/
def snapToGrid (value : ℚ) : ℚ := (jsRound (value / GRID_SIZE) : ℚ) * GRID_SIZE

/-- Snap both coordinates of a point, as done inline at each use site in
`App.tsx` (`{ x: snapToGrid(pos.x), y: snapToGrid(pos.y) }`). -/
def snapPoint (p : Point) : Point := ⟨snapToGrid p.x, snapToGrid p.y⟩

/-- `ROOM_COLORS` palette (`App.tsx` lines 6–20), 30 entries. -/
def ROOM_COLORS : List String :=
  [ "#DBEAFE", "#BFDBFE", "#93C5FD",
    "#A7F3D0", "#6EE7B7", "#34D399",
    "#C7D2FE", "#A5B4FC", "#818CF8",
    "#DDD6FE", "#C4B5FD", "#A78BFA",
    "#E9D5FF", "#D8B4FE", "#C084FC",
    "#FDE68A", "#FCD34D", "#FBBF24",
    "#FED7AA", "#FDBA74", "#FB923C",
    "#FECACA", "#FCA5A5", "#F87171",
    "#FBCFE8", "#F9A8D4", "#F472B6",
    "#E5E7EB", "#D1D5DB", "#9CA3AF" ]

/-- The `useHistory` hook's internal state (`App.tsx` lines 40–42): the list
of snapshots and the current index. -/
structure HistoryState (T : Type) where
  history : List T
  index : ℕ
  deriving DecidableEq, Repr

/-- `history[index]`, the state exposed by `useHistory` (`App.tsx` line 62). -/
def HistoryState.state {T : Type} [Inhabited T] (h : HistoryState T) : T :=
  h.history.getD h.index default

/-- `useHistory`'s `setState(action, overwrite)` (`App.tsx` lines 44–56),
with the new snapshot already computed (the hook applies a functional action
to `history[index]`, which callers below pass in explicitly). -/
def HistoryState.setState {T : Type} (h : HistoryState T) (newState : T)
    (overwrite : Bool) : HistoryState T :=
  if overwrite then
    { history := h.history.set h.index newState, index := h.index }
  else
    let newHistory := h.history.take (h.index + 1) ++ [newState]
    { history := newHistory, index := newHistory.length - 1 }

/-- `undo` (`App.tsx` line 58): decrement the index when positive. -/
def HistoryState.undo {T : Type} (h : HistoryState T) : HistoryState T :=
  if 0 < h.index then { h with index := h.index - 1 } else h

/-- `redo` (`App.tsx` line 59): increment the index when below the last slot. -/
def HistoryState.redo {T : Type} (h : HistoryState T) : HistoryState T :=
  if h.index < h.history.length - 1 then { h with index := h.index + 1 } else h

/-- `canUndo` (`App.tsx` line 66). -/
def HistoryState.canUndo {T : Type} (h : HistoryState T) : Bool :=
  decide (0 < h.index)

/-- `canRedo` (`App.tsx` line 67). -/
def HistoryState.canRedo {T : Type} (h : HistoryState T) : Bool :=
  decide (h.index < h.history.length - 1)

/-- The pan/zoom view transform (`App.tsx` line 227). -/
structure ViewTransform where
  scale : ℚ
  x : ℚ
  y : ℚ
  deriving DecidableEq, Repr

/-- `getMouseWorldPos` (`App.tsx` lines 236–242): viewport → world.  The
canvas bounding rect is taken at the origin, so `client` is already relative
to the canvas. -/
def getMouseWorldPos (vt : ViewTransform) (client : Point) : Point :=
  ⟨(client.x - vt.x) / vt.scale, (client.y - vt.y) / vt.scale⟩

/-- Tool mode (`App.tsx` line 216). -/
inductive Mode
  | select
  | draw
  deriving DecidableEq, Repr

/-- Corner handles (`App.tsx` line 111). -/
inductive ResizeHandle
  | topLeft
  | topRight
  | bottomLeft
  | bottomRight
  deriving DecidableEq, Repr

/-- The `actionState` object (`App.tsx` lines 218–225).  The source uses one
record with optional fields; each constructor here carries exactly the fields
the source sets for that `type`, so every source-side guard such as
`actionState.targetId && actionState.moveOffset` is satisfied by
construction. -/
inductive ActionState
  | none
  | drawing (startPoint : Point)
  | moving (targetId : String) (moveOffset : Point) (isDragging : Bool)
  | resizing (targetId : String) (handle : ResizeHandle) (isDragging : Bool)
  deriving DecidableEq, Repr

/-- The React component state of `App` that the pointer handlers read and
write (`App.tsx` lines 206–234). -/
structure AppState where
  hist : HistoryState (List Room)
  selectedRoomId : Option String
  mode : Mode
  actionState : ActionState
  viewTransform : ViewTransform
  isPanning : Bool
  panStart : Point
  drawingPreview : Option (Point × Point)
  deriving DecidableEq, Repr

/-- The two initial rooms (`App.tsx` lines 207–210). -/
def initialRooms : List Room :=
  [ { id := "living-room-1", name := "Living Room", x := 50, y := 50,
      width := 300, height := 200, color := "#DBEAFE", zIndex := 0,
      features := [], locked := false },
    { id := "kitchen-1", name := "Kitchen", x := 350, y := 50,
      width := 150, height := 150, color := "#BFDBFE", zIndex := 1,
      features := [], locked := false } ]

/-- The initial component state (`App.tsx` lines 212–234). -/
def initialApp : AppState :=
  { hist := { history := [initialRooms], index := 0 },
    selectedRoomId := Option.none,
    mode := Mode.select,
    actionState := ActionState.none,
    viewTransform := { scale := 1, x := 0, y := 0 },
    isPanning := false,
    panStart := ⟨0, 0⟩,
    drawingPreview := Option.none }

/-- `handleMouseDown` on the canvas (`App.tsx` lines 244–266). -/
def handleMouseDown (s : AppState) (button : ℕ) (client : Point) : AppState :=
  if button = 1 then
    { s with isPanning := true, panStart := client }
  else
    let pos := getMouseWorldPos s.viewTransform client
    if s.mode = Mode.draw then
      let startPoint := snapPoint pos
      { s with actionState := ActionState.drawing startPoint,
               drawingPreview := some (startPoint, startPoint),
               selectedRoomId := Option.none }
    else
      let s1 := { s with selectedRoomId := Option.none }
      if button = 0 then { s1 with isPanning := true, panStart := client } else s1

/-- `handleRoomMouseDown` (`App.tsx` lines 268–285).  When the guard on the
first line fires (`mode === 'draw' || room.locked`) the handler returns
before `stopPropagation`, so the event additionally bubbles to
`handleMouseDown`; that bubbling is modelled in `step`. -/
def handleRoomMouseDown (s : AppState) (room : Room) (button : ℕ)
    (client : Point) : AppState :=
  if s.mode = Mode.draw ∨ room.locked then s
  else if button = 0 then
    let pos := getMouseWorldPos s.viewTransform client
    { s with selectedRoomId := some room.id,
             actionState := ActionState.moving room.id
               ⟨pos.x - room.x, pos.y - room.y⟩ false }
  else s

/-- `handleResizeStart` (`App.tsx` lines 287–296).  `stopPropagation` is
called first, so this event never bubbles to the canvas handler. -/
def handleResizeStart (s : AppState) (room : Room) (handle : ResizeHandle)
    (button : ℕ) : AppState :=
  if s.mode ≠ Mode.select ∨ button ≠ 0 ∨ room.locked then s
  else { s with actionState := ActionState.resizing room.id handle false }

/-- The per-room update of the `moving` branch of `handleMouseMove`
(`App.tsx` lines 314–318). -/
def moveRoomStep (targetId : String) (moveOffset : Point) (pos : Point)
    (rooms : List Room) : List Room :=
  rooms.map fun r =>
    if r.id == targetId then
      { r with x := snapToGrid (pos.x - moveOffset.x),
               y := snapToGrid (pos.y - moveOffset.y) }
    else r

/-- The per-room geometry recomputation of the `resizing` branch of
`handleMouseMove` (`App.tsx` lines 328–364), including the final
`Math.round` of each component. -/
def resizeRoomStep (handle : ResizeHandle) (snappedPos : Point) (r : Room) :
    Room :=
  let right := r.x + r.width
  let bottom := r.y + r.height
  let g :=
    match handle with
    | ResizeHandle.topLeft =>
        let x := min snappedPos.x (right - GRID_SIZE)
        let y := min snappedPos.y (bottom - GRID_SIZE)
        (x, y, right - x, bottom - y)
    | ResizeHandle.topRight =>
        let y := min snappedPos.y (bottom - GRID_SIZE)
        (r.x, y, max GRID_SIZE (snappedPos.x - r.x), bottom - y)
    | ResizeHandle.bottomLeft =>
        let x := min snappedPos.x (right - GRID_SIZE)
        (x, r.y, right - x, max GRID_SIZE (snappedPos.y - r.y))
    | ResizeHandle.bottomRight =>
        (r.x, r.y, max GRID_SIZE (snappedPos.x - r.x),
         max GRID_SIZE (snappedPos.y - r.y))
  { r with x := (jsRound g.1 : ℚ), y := (jsRound g.2.1 : ℚ),
           width := (jsRound g.2.2.1 : ℚ), height := (jsRound g.2.2.2 : ℚ) }

/-- `handleMouseMove` (`App.tsx` lines 298–366). -/
def handleMouseMove (s : AppState) (client : Point) : AppState :=
  if s.isPanning then
    let dx := client.x - s.panStart.x
    let dy := client.y - s.panStart.y
    { s with viewTransform := { s.viewTransform with
                                  x := s.viewTransform.x + dx,
                                  y := s.viewTransform.y + dy },
             panStart := client }
  else
    match s.actionState with
    | ActionState.none => s
    | ActionState.moving targetId moveOffset _ =>
        let pos := getMouseWorldPos s.viewTransform client
        { s with actionState := ActionState.moving targetId moveOffset true,
                 hist := s.hist.setState
                   (moveRoomStep targetId moveOffset pos s.hist.state) true }
    | ActionState.drawing startPoint =>
        let pos := getMouseWorldPos s.viewTransform client
        let snappedEnd := snapPoint pos
        { s with actionState := ActionState.drawing startPoint,
                 drawingPreview :=
                   s.drawingPreview.map fun pr => (pr.1, snappedEnd) }
    | ActionState.resizing targetId handle _ =>
        let pos := getMouseWorldPos s.viewTransform client
        let snappedPos := snapPoint pos
        { s with actionState := ActionState.resizing targetId handle true,
                 hist := s.hist.setState
                   (s.hist.state.map fun r =>
                     if r.id == targetId then resizeRoomStep handle snappedPos r
                     else r) true }

/-- `Math.max(...rooms.map(r => r.zIndex))` for a nonempty argument list. -/
def listMax : List ℚ → ℚ
  | [] => 0
  | z :: zs => zs.foldl max z

/-- The new room built by the `drawing` branch of `handleMouseUp`
(`App.tsx` lines 385–398); `uuid` stands for the `crypto.randomUUID()`
result. -/
def mkDrawnRoom (rooms : List Room) (startPoint snappedEnd : Point)
    (uuid : String) : Room :=
  let maxZ : ℚ := if 0 < rooms.length then listMax (rooms.map Room.zIndex) else -1
  { id := uuid,
    name := "Room " ++ toString (rooms.length + 1),
    x := min startPoint.x snappedEnd.x,
    y := min startPoint.y snappedEnd.y,
    width := |startPoint.x - snappedEnd.x|,
    height := |startPoint.y - snappedEnd.y|,
    color := ROOM_COLORS.getD (rooms.length % ROOM_COLORS.length) "",
    zIndex := maxZ + 1,
    features := [],
    locked := false }

/-- `handleMouseUp` (`App.tsx` lines 368–408); `uuid` stands for the
`crypto.randomUUID()` drawn when a room is created. -/
def handleMouseUp (s : AppState) (client : Point) (uuid : String) : AppState :=
  let s1 := if s.isPanning then { s with isPanning := false } else s
  let rooms := s1.hist.state
  let s2 :=
    match s1.actionState with
    | ActionState.moving _ _ true =>
        { s1 with hist := s1.hist.setState rooms false }
    | ActionState.resizing _ _ true =>
        { s1 with hist := s1.hist.setState rooms false }
    | ActionState.drawing startPoint =>
        let endPoint := getMouseWorldPos s1.viewTransform client
        let snappedEnd := snapPoint endPoint
        let newRoom := mkDrawnRoom rooms startPoint snappedEnd uuid
        let s3 :=
          if GRID_SIZE ≤ newRoom.width ∧ GRID_SIZE ≤ newRoom.height then
            { s1 with hist := s1.hist.setState (rooms ++ [newRoom]) false,
                      selectedRoomId := some newRoom.id }
          else s1
        { s3 with drawingPreview := Option.none, mode := Mode.select }
    | _ => s1
  { s2 with actionState := ActionState.none }

/-- `handleWheel` (`App.tsx` lines 410–429): zoom-to-cursor. -/
def handleWheel (vt : ViewTransform) (client : Point) (deltaY : ℚ) :
    ViewTransform :=
  let zoomFactor : ℚ := 11/10
  let newScale := if deltaY < 0 then vt.scale * zoomFactor
                  else vt.scale / zoomFactor
  let clampedScale := max (2/10) (min newScale 5)
  let worldX := (client.x - vt.x) / vt.scale
  let worldY := (client.y - vt.y) / vt.scale
  { scale := clampedScale,
    x := client.x - worldX * clampedScale,
    y := client.y - worldY * clampedScale }

/-- A pointer/wheel event reaching the canvas.  `roomDown`/`resizeStart`
carry the id of the room whose DOM node received the event (the rendering
layer hands the corresponding `Room` object to the handler); `mouseUp`
carries the `crypto.randomUUID()` value consumed if a room is created. -/
inductive Event
  | canvasDown (button : ℕ) (client : Point)
  | roomDown (id : String) (button : ℕ) (client : Point)
  | resizeStart (id : String) (handle : ResizeHandle) (button : ℕ)
  | mouseMove (client : Point)
  | mouseUp (client : Point) (uuid : String)
  | wheel (deltaY : ℚ) (client : Point)

/-- One synchronous DOM event dispatch.  For `roomDown`, the room object the
renderer passes to `handleRoomMouseDown` is the room in the current list with
the event's id; when the handler's first-line guard returns before
`stopPropagation`, the event bubbles to the canvas `handleMouseDown`. -/
def step (s : AppState) : Event → AppState
  | Event.canvasDown b c => handleMouseDown s b c
  | Event.roomDown id b c =>
      match s.hist.state.find? (fun r => r.id == id) with
      | Option.none => s
      | some room =>
          let s' := handleRoomMouseDown s room b c
          if s.mode = Mode.draw ∨ room.locked then handleMouseDown s' b c
          else s'
  | Event.resizeStart id h b =>
      match s.hist.state.find? (fun r => r.id == id) with
      | Option.none => s
      | some room => handleResizeStart s room h b
  | Event.mouseMove c => handleMouseMove s c
  | Event.mouseUp c uuid => handleMouseUp s c uuid
  | Event.wheel d c => { s with viewTransform := handleWheel s.viewTransform c d }

/-- Fold a stream of events through `step`. -/
def run (s : AppState) : List Event → AppState
  | [] => s
  | e :: es => run (step s e) es

/-- A parsed room record from a loaded file (`App.tsx` lines 462–480): each
required field is present or absent, matching the `'field' in r` checks. -/
structure RawRoom where
  id : Option String
  name : Option String
  x : Option ℚ
  y : Option ℚ
  width : Option ℚ
  height : Option ℚ
  color : Option String
  zIndex : Option ℚ
  features : Option (List WallFeature)
  locked : Option Bool
  deriving DecidableEq, Repr

/-- The parsed content of a loaded file: either not an array, or an array of
room records. -/
inductive LoadedJson
  | notArray
  | rooms (rs : List RawRoom)

/-- The field-presence check of `handleFileChange` (`App.tsx` lines 464–467). -/
def hasRequired (r : RawRoom) : Bool :=
  r.id.isSome && r.name.isSome && r.x.isSome && r.y.isSome &&
  r.width.isSome && r.height.isSome && r.color.isSome && r.zIndex.isSome

/-- The per-feature sanitization in `handleFileChange` (`App.tsx` lines
476–479): only `width` is rounded. -/
def sanitizeFeature (f : WallFeature) : WallFeature :=
  { f with width := (jsRound f.width : ℚ) }

/-- The per-room sanitization in `handleFileChange` (`App.tsx` lines
469–480): geometry rounded, `locked` defaulted to `false`, `features`
defaulted to `[]` with widths rounded; other fields spread through. -/
def sanitizeRoom (r : RawRoom) : Room :=
  { id := r.id.getD "",
    name := r.name.getD "",
    x := (jsRound (r.x.getD 0) : ℚ),
    y := (jsRound (r.y.getD 0) : ℚ),
    width := (jsRound (r.width.getD 0) : ℚ),
    height := (jsRound (r.height.getD 0) : ℚ),
    color := r.color.getD "",
    zIndex := r.zIndex.getD 0,
    features := (r.features.getD []).map sanitizeFeature,
    locked := r.locked.getD false }

/-- `handleFileChange` (`App.tsx` lines 453–493) applied to the parsed file
content; the returned `Bool` is true when the user-facing `alert` fires. -/
def handleFileChange (j : LoadedJson) (s : AppState) : AppState × Bool :=
  match j with
  | LoadedJson.notArray => (s, true)
  | LoadedJson.rooms rs =>
      if rs.all hasRequired then
        ({ s with hist := s.hist.setState (rs.map sanitizeRoom) false,
                  selectedRoomId := Option.none }, false)
      else (s, true)

/-! ## General lemmas about the embedded definitions -/

lemma HistoryState.state_setState_false {T : Type} [Inhabited T]
    (h : HistoryState T) (v : T) : (h.setState v false).state = v := by
  simp only [HistoryState.setState, HistoryState.state, if_neg Bool.false_ne_true,
    List.length_append, List.length_singleton]
  rw [List.getD_eq_getElem?_getD]
  rw [show (h.history.take (h.index + 1)).length + 1 - 1
        = (h.history.take (h.index + 1)).length from rfl]
  rw [List.getElem?_append_right (le_refl _)]
  simp

lemma HistoryState.state_setState_true {T : Type} [Inhabited T]
    (h : HistoryState T) (v : T) :
    (h.setState v true).state =
      if h.index < h.history.length then v else default := by
  simp only [HistoryState.setState, if_true, HistoryState.state]
  by_cases hi : h.index < h.history.length
  · rw [if_pos hi, List.getD_eq_getElem?_getD, List.getElem?_set_self hi]
    rfl
  · rw [if_neg hi, List.set_eq_of_length_le (by omega)]
    exact List.getD_eq_default _ _ (by omega)

/-- A rational that is (the cast of) an integer; room geometry satisfies this
after every edit, since every write path rounds or snaps. -/
def IsInt (q : ℚ) : Prop := ∃ n : ℤ, q = n

lemma IsInt.add {a b : ℚ} (ha : IsInt a) (hb : IsInt b) : IsInt (a + b) := by
  obtain ⟨m, rfl⟩ := ha; obtain ⟨n, rfl⟩ := hb
  exact ⟨m + n, by push_cast; ring⟩

lemma IsInt.sub {a b : ℚ} (ha : IsInt a) (hb : IsInt b) : IsInt (a - b) := by
  obtain ⟨m, rfl⟩ := ha; obtain ⟨n, rfl⟩ := hb
  exact ⟨m - n, by push_cast; ring⟩

lemma IsInt.min {a b : ℚ} (ha : IsInt a) (hb : IsInt b) : IsInt (min a b) := by
  rcases le_total a b with h | h
  · rwa [min_eq_left h]
  · rwa [min_eq_right h]

lemma IsInt.max {a b : ℚ} (ha : IsInt a) (hb : IsInt b) : IsInt (max a b) := by
  rcases le_total a b with h | h
  · rwa [max_eq_right h]
  · rwa [max_eq_left h]

lemma isInt_gridSize : IsInt GRID_SIZE := ⟨10, by norm_num [GRID_SIZE]⟩

/-- Rounding is the identity on integer-valued rationals. -/
lemma IsInt.jsRound_cast {q : ℚ} (h : IsInt q) : ((jsRound q : ℤ) : ℚ) = q := by
  obtain ⟨n, rfl⟩ := h
  rw [jsRound, Int.floor_int_add]
  norm_num

/-- `snapToGrid` always produces an integer (in fact a multiple of 10). -/
lemma isInt_snapToGrid (q : ℚ) : IsInt (snapToGrid q) :=
  ⟨jsRound (q / GRID_SIZE) * 10, by rw [snapToGrid, GRID_SIZE]; push_cast; ring⟩

/-! ## Claim theorems -/

/-- Claim C9: whenever `canUndo` holds (and the history index is in bounds,
as `useHistory` maintains), `undo()` immediately followed by `redo()` returns
the history store to exactly the state it had before the `undo`: same
snapshot list, same index, hence the same exposed snapshot. -/
theorem undo_redo_roundtrip {T : Type} (h : HistoryState T)
    (hcu : h.canUndo = true) (hix : h.index < h.history.length) :
    h.undo.redo = h := by
  have h0 : 0 < h.index := by simpa [HistoryState.canUndo] using hcu
  unfold HistoryState.undo HistoryState.redo
  rw [if_pos h0]
  have hlt : h.index - 1 < h.history.length - 1 := by omega
  simp only [hlt, if_pos]
  have : h.index - 1 + 1 = h.index := by omega
  simp [this]

/-- Witness for C9 at a concrete two-entry history with index 1. -/
theorem undo_redo_roundtrip_witness :
    (⟨[0, 1], 1⟩ : HistoryState ℕ).canUndo = true ∧
    (⟨[0, 1], 1⟩ : HistoryState ℕ).undo.redo = ⟨[0, 1], 1⟩ :=
  ⟨by decide, undo_redo_roundtrip ⟨[0, 1], 1⟩ (by decide) (by decide)⟩

/-- Claim C2: for any view transform with scale in `[0.2, 5]` and any wheel
event at viewport point `p`, `handleWheel` multiplies (wheel-in,
`deltaY < 0`) or divides (wheel-out) the scale by 1.1, clamps it to
`[0.2, 5]`, and recomputes the translation so that `p` maps to the same
world point under the new transform as under the old one. -/
theorem wheel_zoom_to_cursor (vt : ViewTransform) (p : Point) (deltaY : ℚ)
    (h1 : 2/10 ≤ vt.scale) (h2 : vt.scale ≤ 5) :
    (handleWheel vt p deltaY).scale =
      max (2/10) (min (if deltaY < 0 then vt.scale * (11/10)
                       else vt.scale / (11/10)) 5) ∧
    2/10 ≤ (handleWheel vt p deltaY).scale ∧
    (handleWheel vt p deltaY).scale ≤ 5 ∧
    getMouseWorldPos (handleWheel vt p deltaY) p = getMouseWorldPos vt p := by
  have hs : (0:ℚ) < vt.scale := lt_of_lt_of_le (by norm_num) h1
  have hcs : (0:ℚ) < max (2/10) (min (if deltaY < 0 then vt.scale * (11/10)
      else vt.scale / (11/10)) 5) :=
    lt_of_lt_of_le (by norm_num) (le_max_left _ _)
  refine ⟨rfl, le_max_left _ _, max_le (by norm_num) (min_le_right _ _), ?_⟩
  simp only [handleWheel, getMouseWorldPos, Point.mk.injEq]
  constructor <;> · field_simp; ring

/-- Witness for C2: the spec scenario — scale 1, translation 0, cursor at
viewport `(100,100)` over world point `(100,100)`; after one wheel-in tick
`toWorld((100,100))` is unchanged, i.e. still `(100,100)`. -/
theorem wheel_zoom_to_cursor_witness :
    ((2:ℚ)/10 ≤ 1 ∧ (1:ℚ) ≤ 5) ∧
    getMouseWorldPos (handleWheel ⟨1, 0, 0⟩ ⟨100, 100⟩ (-1)) ⟨100, 100⟩ =
      getMouseWorldPos ⟨1, 0, 0⟩ ⟨100, 100⟩ ∧
    getMouseWorldPos ⟨1, 0, 0⟩ ⟨100, 100⟩ = ⟨100, 100⟩ := by
  refine ⟨⟨by norm_num, by norm_num⟩,
    (wheel_zoom_to_cursor ⟨1, 0, 0⟩ ⟨100, 100⟩ (-1)
      (by norm_num) (by norm_num)).2.2.2, ?_⟩
  simp [getMouseWorldPos]

/-- Claim C5: each pointer-move step of a resize gesture on a room with
integer coordinates yields width and height at least one grid unit (10), and
keeps the edge opposite the dragged handle fixed: `bottom-right` keeps `x`
and `y`, `top-left` keeps `x+width` and `y+height`, `top-right` keeps `x`
and `y+height`, `bottom-left` keeps `x+width` and `y`. -/
theorem resize_respects_anchor (r : Room) (handle : ResizeHandle) (p : Point)
    (hx : IsInt r.x) (hy : IsInt r.y)
    (hw : IsInt r.width) (hh : IsInt r.height) :
    GRID_SIZE ≤ (resizeRoomStep handle (snapPoint p) r).width ∧
    GRID_SIZE ≤ (resizeRoomStep handle (snapPoint p) r).height ∧
    (handle = ResizeHandle.bottomRight →
      (resizeRoomStep handle (snapPoint p) r).x = r.x ∧
      (resizeRoomStep handle (snapPoint p) r).y = r.y) ∧
    (handle = ResizeHandle.topLeft →
      (resizeRoomStep handle (snapPoint p) r).x
          + (resizeRoomStep handle (snapPoint p) r).width = r.x + r.width ∧
      (resizeRoomStep handle (snapPoint p) r).y
          + (resizeRoomStep handle (snapPoint p) r).height = r.y + r.height) ∧
    (handle = ResizeHandle.topRight →
      (resizeRoomStep handle (snapPoint p) r).x = r.x ∧
      (resizeRoomStep handle (snapPoint p) r).y
          + (resizeRoomStep handle (snapPoint p) r).height = r.y + r.height) ∧
    (handle = ResizeHandle.bottomLeft →
      (resizeRoomStep handle (snapPoint p) r).x
          + (resizeRoomStep handle (snapPoint p) r).width = r.x + r.width ∧
      (resizeRoomStep handle (snapPoint p) r).y = r.y) := by
  have hsx : IsInt (snapPoint p).x := isInt_snapToGrid p.x
  have hsy : IsInt (snapPoint p).y := isInt_snapToGrid p.y
  have hG : IsInt GRID_SIZE := isInt_gridSize
  cases handle with
  | topLeft =>
      have hX : IsInt (min (snapPoint p).x (r.x + r.width - GRID_SIZE)) :=
        hsx.min ((hx.add hw).sub hG)
      have hY : IsInt (min (snapPoint p).y (r.y + r.height - GRID_SIZE)) :=
        hsy.min ((hy.add hh).sub hG)
      have hW : IsInt (r.x + r.width
          - min (snapPoint p).x (r.x + r.width - GRID_SIZE)) :=
        (hx.add hw).sub hX
      have hH : IsInt (r.y + r.height
          - min (snapPoint p).y (r.y + r.height - GRID_SIZE)) :=
        (hy.add hh).sub hY
      simp only [resizeRoomStep]
      rw [hX.jsRound_cast, hY.jsRound_cast, hW.jsRound_cast, hH.jsRound_cast]
      have h1 := min_le_right (snapPoint p).x (r.x + r.width - GRID_SIZE)
      have h2 := min_le_right (snapPoint p).y (r.y + r.height - GRID_SIZE)
      refine ⟨by linarith, by linarith, by simp, fun _ => ⟨by ring, by ring⟩,
        by simp, by simp⟩
  | topRight =>
      have hY : IsInt (min (snapPoint p).y (r.y + r.height - GRID_SIZE)) :=
        hsy.min ((hy.add hh).sub hG)
      have hW : IsInt (max GRID_SIZE ((snapPoint p).x - r.x)) :=
        hG.max (hsx.sub hx)
      have hH : IsInt (r.y + r.height
          - min (snapPoint p).y (r.y + r.height - GRID_SIZE)) :=
        (hy.add hh).sub hY
      simp only [resizeRoomStep]
      rw [hx.jsRound_cast, hY.jsRound_cast, hW.jsRound_cast, hH.jsRound_cast]
      have h1 := le_max_left GRID_SIZE ((snapPoint p).x - r.x)
      have h2 := min_le_right (snapPoint p).y (r.y + r.height - GRID_SIZE)
      exact ⟨h1, by linarith, by simp, by simp, fun _ => ⟨rfl, by ring⟩, by simp⟩
  | bottomLeft =>
      have hX : IsInt (min (snapPoint p).x (r.x + r.width - GRID_SIZE)) :=
        hsx.min ((hx.add hw).sub hG)
      have hW : IsInt (r.x + r.width
          - min (snapPoint p).x (r.x + r.width - GRID_SIZE)) :=
        (hx.add hw).sub hX
      have hH : IsInt (max GRID_SIZE ((snapPoint p).y - r.y)) :=
        hG.max (hsy.sub hy)
      simp only [resizeRoomStep]
      rw [hX.jsRound_cast, hy.jsRound_cast, hW.jsRound_cast, hH.jsRound_cast]
      have h1 := min_le_right (snapPoint p).x (r.x + r.width - GRID_SIZE)
      have h2 := le_max_left GRID_SIZE ((snapPoint p).y - r.y)
      exact ⟨by linarith, h2, by simp, by simp, by simp, fun _ => ⟨by ring, rfl⟩⟩
  | bottomRight =>
      have hW : IsInt (max GRID_SIZE ((snapPoint p).x - r.x)) :=
        hG.max (hsx.sub hx)
      have hH : IsInt (max GRID_SIZE ((snapPoint p).y - r.y)) :=
        hG.max (hsy.sub hy)
      simp only [resizeRoomStep]
      rw [hx.jsRound_cast, hy.jsRound_cast, hW.jsRound_cast, hH.jsRound_cast]
      exact ⟨le_max_left _ _, le_max_left _ _, fun _ => ⟨rfl, rfl⟩,
        by simp, by simp, by simp⟩

/-- Witness for C5: dragging the top-left handle of the 300×200 living room
to pointer `(37,12)` keeps the bottom-right corner `(350,250)` fixed and the
size at least one grid unit. -/
theorem resize_respects_anchor_witness :
    GRID_SIZE ≤ (resizeRoomStep ResizeHandle.topLeft (snapPoint ⟨37, 12⟩)
      { id := "living-room-1", name := "Living Room", x := 50, y := 50,
        width := 300, height := 200, color := "#DBEAFE", zIndex := 0,
        features := [], locked := false }).width ∧
    (resizeRoomStep ResizeHandle.topLeft (snapPoint ⟨37, 12⟩)
      { id := "living-room-1", name := "Living Room", x := 50, y := 50,
        width := 300, height := 200, color := "#DBEAFE", zIndex := 0,
        features := [], locked := false }).x +
    (resizeRoomStep ResizeHandle.topLeft (snapPoint ⟨37, 12⟩)
      { id := "living-room-1", name := "Living Room", x := 50, y := 50,
        width := 300, height := 200, color := "#DBEAFE", zIndex := 0,
        features := [], locked := false }).width = 50 + 300 := by
  have h := resize_respects_anchor
    { id := "living-room-1", name := "Living Room", x := 50, y := 50,
      width := 300, height := 200, color := "#DBEAFE", zIndex := 0,
      features := [], locked := false }
    ResizeHandle.topLeft ⟨37, 12⟩
    ⟨50, by norm_num⟩ ⟨50, by norm_num⟩ ⟨300, by norm_num⟩ ⟨200, by norm_num⟩
  exact ⟨h.1, (h.2.2.2.1 rfl).1⟩

/-- The difference of two snapped values is an integer multiple of the grid
unit. -/
lemma snap_sub_multiple (a u : ℚ) :
    ∃ k : ℤ, |snapToGrid a - snapToGrid u| = (k : ℚ) * GRID_SIZE := by
  refine ⟨|jsRound (a / GRID_SIZE) - jsRound (u / GRID_SIZE)|, ?_⟩
  rw [snapToGrid, snapToGrid, ← sub_mul, abs_mul,
    abs_of_nonneg (by norm_num [GRID_SIZE] : (0:ℚ) ≤ GRID_SIZE),
    ← Int.cast_sub, ← Int.cast_abs]

/-- What `handleMouseUp` does to the history in the `drawing` state: a
single append of the room list extended by the drawn room when both
dimensions reach the grid size, and no history change otherwise. -/
lemma handleMouseUp_drawing (s : AppState) (sp : Point) (c : Point)
    (uuid : String) (hact : s.actionState = ActionState.drawing sp) :
    (handleMouseUp s c uuid).hist =
      (if GRID_SIZE ≤ (mkDrawnRoom s.hist.state sp
            (snapPoint (getMouseWorldPos s.viewTransform c)) uuid).width ∧
          GRID_SIZE ≤ (mkDrawnRoom s.hist.state sp
            (snapPoint (getMouseWorldPos s.viewTransform c)) uuid).height
       then s.hist.setState (s.hist.state ++ [mkDrawnRoom s.hist.state sp
            (snapPoint (getMouseWorldPos s.viewTransform c)) uuid]) false
       else s.hist) := by
  unfold handleMouseUp
  cases hp : s.isPanning <;> simp only [hp, Bool.false_eq_true, if_false,
    if_true, hact] <;> split <;> simp_all

/-- Claim C3: for every completed draw gesture whose recorded start point is
snapped (as `handleMouseDown` guarantees) and whose end point is snapped by
`handleMouseUp` itself, the drawn room's width and height are
`|start − end|` per axis, both integer multiples of the grid unit; when both
are at least one grid unit the gesture appends exactly one room to the
current snapshot as a single history step, and otherwise no room is created
and the history is untouched. -/
theorem draw_commit_grid (s : AppState) (a b : ℚ) (c : Point) (uuid : String)
    (hact : s.actionState = ActionState.drawing (snapPoint ⟨a, b⟩)) :
    (mkDrawnRoom s.hist.state (snapPoint ⟨a, b⟩)
        (snapPoint (getMouseWorldPos s.viewTransform c)) uuid).width =
      |(snapPoint ⟨a, b⟩).x - (snapPoint (getMouseWorldPos s.viewTransform c)).x| ∧
    (mkDrawnRoom s.hist.state (snapPoint ⟨a, b⟩)
        (snapPoint (getMouseWorldPos s.viewTransform c)) uuid).height =
      |(snapPoint ⟨a, b⟩).y - (snapPoint (getMouseWorldPos s.viewTransform c)).y| ∧
    (∃ k : ℤ, (mkDrawnRoom s.hist.state (snapPoint ⟨a, b⟩)
        (snapPoint (getMouseWorldPos s.viewTransform c)) uuid).width =
      (k : ℚ) * GRID_SIZE) ∧
    (∃ k : ℤ, (mkDrawnRoom s.hist.state (snapPoint ⟨a, b⟩)
        (snapPoint (getMouseWorldPos s.viewTransform c)) uuid).height =
      (k : ℚ) * GRID_SIZE) ∧
    ((GRID_SIZE ≤ (mkDrawnRoom s.hist.state (snapPoint ⟨a, b⟩)
          (snapPoint (getMouseWorldPos s.viewTransform c)) uuid).width ∧
      GRID_SIZE ≤ (mkDrawnRoom s.hist.state (snapPoint ⟨a, b⟩)
          (snapPoint (getMouseWorldPos s.viewTransform c)) uuid).height ∧
      (step s (Event.mouseUp c uuid)).hist =
        s.hist.setState (s.hist.state ++ [mkDrawnRoom s.hist.state
          (snapPoint ⟨a, b⟩)
          (snapPoint (getMouseWorldPos s.viewTransform c)) uuid]) false ∧
      (step s (Event.mouseUp c uuid)).hist.state =
        s.hist.state ++ [mkDrawnRoom s.hist.state (snapPoint ⟨a, b⟩)
          (snapPoint (getMouseWorldPos s.viewTransform c)) uuid]) ∨
     (¬ (GRID_SIZE ≤ (mkDrawnRoom s.hist.state (snapPoint ⟨a, b⟩)
          (snapPoint (getMouseWorldPos s.viewTransform c)) uuid).width ∧
         GRID_SIZE ≤ (mkDrawnRoom s.hist.state (snapPoint ⟨a, b⟩)
          (snapPoint (getMouseWorldPos s.viewTransform c)) uuid).height) ∧
      (step s (Event.mouseUp c uuid)).hist = s.hist)) := by
  have hmain := handleMouseUp_drawing s (snapPoint ⟨a, b⟩) c uuid hact
  have hstep : step s (Event.mouseUp c uuid) = handleMouseUp s c uuid := rfl
  refine ⟨rfl, rfl, ?_, ?_, ?_⟩
  · simpa [mkDrawnRoom, snapPoint] using
      snap_sub_multiple a (getMouseWorldPos s.viewTransform c).x
  · simpa [mkDrawnRoom, snapPoint] using
      snap_sub_multiple b (getMouseWorldPos s.viewTransform c).y
  · by_cases hsz : GRID_SIZE ≤ (mkDrawnRoom s.hist.state (snapPoint ⟨a, b⟩)
        (snapPoint (getMouseWorldPos s.viewTransform c)) uuid).width ∧
      GRID_SIZE ≤ (mkDrawnRoom s.hist.state (snapPoint ⟨a, b⟩)
        (snapPoint (getMouseWorldPos s.viewTransform c)) uuid).height
    · left
      rw [hstep, hmain, if_pos hsz]
      exact ⟨hsz.1, hsz.2, rfl, HistoryState.state_setState_false _ _⟩
    · right
      rw [hstep, hmain, if_neg hsz]
      exact ⟨hsz, rfl⟩

@[simp] lemma select_eq_draw_iff : (Mode.select = Mode.draw) ↔ False :=
  ⟨fun h => Mode.noConfusion h, False.elim⟩

@[simp] lemma draw_eq_select_iff : (Mode.draw = Mode.select) ↔ False :=
  ⟨fun h => Mode.noConfusion h, False.elim⟩

/-- The app state after selecting the draw tool. -/
def sDrawMode : AppState := { initialApp with mode := Mode.draw }

/-- The app state mid-draw-gesture, start point snapped from world `(10,10)`. -/
def sDrawing : AppState :=
  { initialApp with mode := Mode.draw,
                    actionState := ActionState.drawing (snapPoint ⟨10, 10⟩) }

/-- Witness for C3: the spec's second draw scenario — a gesture whose start
snapped from `(10,10)`, released at world `(45,45)` (identity transform),
has width snapped to a grid multiple. -/
theorem draw_commit_grid_witness :
    sDrawing.actionState = ActionState.drawing (snapPoint ⟨10, 10⟩) ∧
    (∃ k : ℤ, (mkDrawnRoom sDrawing.hist.state (snapPoint ⟨10, 10⟩)
      (snapPoint (getMouseWorldPos sDrawing.viewTransform ⟨45, 45⟩))
      "u-new").width = (k : ℚ) * GRID_SIZE) :=
  ⟨rfl, (draw_commit_grid sDrawing 10 10 ⟨45, 45⟩ "u-new" rfl).2.2.1⟩

/-- The drag of the living room recorded in the C1 scenario: grab at world
`(60,60)`, one move sample at `(83,77)`, release. -/
def dragEvs : List Event :=
  [Event.roomDown "living-room-1" 0 ⟨60, 60⟩, Event.mouseMove ⟨83, 77⟩,
   Event.mouseUp ⟨83, 77⟩ "unused-uuid"]

/-- The room list after that drag: the living room snapped to `(70,70)`. -/
def movedRooms : List Room :=
  [ { id := "living-room-1", name := "Living Room", x := 70, y := 70,
      width := 300, height := 200, color := "#DBEAFE", zIndex := 0,
      features := [], locked := false },
    { id := "kitchen-1", name := "Kitchen", x := 350, y := 50,
      width := 150, height := 150, color := "#BFDBFE", zIndex := 1,
      features := [], locked := false } ]

set_option maxHeartbeats 1000000 in
lemma run_dragEvs :
    run initialApp dragEvs =
      { initialApp with
          hist := { history := [movedRooms, movedRooms], index := 1 },
          selectedRoomId := some "living-room-1",
          actionState := ActionState.none } := by
  norm_num [run, step, dragEvs, handleMouseDown, handleRoomMouseDown, handleMouseMove,
    handleMouseUp, getMouseWorldPos, snapPoint, moveRoomStep, movedRooms,
    snapToGrid, jsRound, GRID_SIZE, initialApp, initialRooms,
    HistoryState.state, HistoryState.setState, max_def, min_def]
  all_goals decide

/-- Claim C1 (code bug): after a full move drag (pointer-down on the
unlocked living room, one pointer-move, pointer-up) the history has gained
exactly one appended entry (length 1 → 2), but `undo()` immediately after
the pointer-up yields the final drag state, not the pre-drag snapshot: the
overwrite writes issued while dragging replaced the pre-drag snapshot in
place, so both history slots hold the moved list and the pre-drag room list
`initialRooms` is unreachable. -/
theorem drag_undo_not_predrag :
    (run initialApp dragEvs).hist.history.length = 2 ∧
    initialApp.hist.history.length = 1 ∧
    (run initialApp dragEvs).hist.undo.state = movedRooms ∧
    (run initialApp dragEvs).hist.state = movedRooms ∧
    movedRooms ≠ initialRooms := by
  rw [run_dragEvs]
  decide

/-- The C4 draw gesture: mouse-down at world `(10,10)`, mouse-up at `(45,45)`
(identity view transform). -/
def evs45 : List Event :=
  [Event.canvasDown 0 ⟨10, 10⟩, Event.mouseUp ⟨45, 45⟩ "new-room-1"]

/-- The room the C4 gesture actually creates: `(45,45)` snaps to `(50,50)`,
giving a 40×40 room at `(10,10)` with the next z-index and palette color. -/
def drawnRoom45 : Room :=
  { id := "new-room-1", name := "Room 3", x := 10, y := 10,
    width := 40, height := 40, color := "#93C5FD", zIndex := 2,
    features := [], locked := false }

set_option maxHeartbeats 1000000 in
lemma run_evs45 :
    run sDrawMode evs45 =
      { initialApp with
          hist := { history := [initialRooms, initialRooms ++ [drawnRoom45]],
                    index := 1 },
          selectedRoomId := some "new-room-1" } := by
  norm_num [run, step, evs45, sDrawMode, handleMouseDown, handleMouseUp,
    getMouseWorldPos, snapPoint, snapToGrid, jsRound, GRID_SIZE, mkDrawnRoom,
    listMax, initialApp, initialRooms, drawnRoom45, HistoryState.state,
    HistoryState.setState, ROOM_COLORS, abs, max_def, min_def]
  all_goals decide

/-- Claim C4 counterexample: drawing from world `(10,10)` to `(45,45)` does
NOT leave the plan unchanged — `(45,45)` snaps up to `(50,50)`, so a 40×40
room is created and the history grows. -/
theorem draw_45_scenario_cex :
    ¬ ((run sDrawMode evs45).hist.history.length
          = initialApp.hist.history.length ∧
       (run sDrawMode evs45).hist.state = initialApp.hist.state) := by
  rw [run_evs45]
  decide

/-- Claim C4 (amended): starting from the two initial rooms, the draw
gesture from world `(10,10)` to `(45,45)` snaps its end point to `(50,50)`
and appends exactly one history entry containing one new room at
`(10,10)` of size 40×40 with zIndex 2. -/
theorem draw_45_scenario_amended :
    (run sDrawMode evs45).hist.history
      = [initialRooms, initialRooms ++ [drawnRoom45]] ∧
    (run sDrawMode evs45).hist.index = 1 ∧
    (run sDrawMode evs45).hist.state = initialRooms ++ [drawnRoom45] := by
  rw [run_evs45]
  decide

/-- Claim C7: if the parsed file content is not an array, or any room record
lacks one of the required fields, the load is rejected as a whole: exactly
one alert fires and the app state — room list and history included — is
completely unchanged. -/
theorem load_rejects_malformed (j : LoadedJson) (s : AppState)
    (hbad : j = LoadedJson.notArray ∨
      ∃ rs, j = LoadedJson.rooms rs ∧ ∃ r ∈ rs, hasRequired r = false) :
    handleFileChange j s = (s, true) := by
  rcases hbad with rfl | ⟨rs, rfl, r, hr, hreq⟩
  · rfl
  · have hall : rs.all hasRequired = false := by
      rw [List.all_eq_false]
      exact ⟨r, hr, by simp [hreq]⟩
    simp [handleFileChange, hall]

/-- A record missing the required `name` field. -/
def rawMissingName : RawRoom :=
  { id := some "r1", name := Option.none, x := some 1, y := some 2,
    width := some 30, height := some 40, color := some "#fff",
    zIndex := some 0, features := Option.none, locked := Option.none }

/-- Witness for C7: a one-record file whose record misses `name` is rejected
with a single alert and the state is untouched. -/
theorem load_rejects_malformed_witness :
    (LoadedJson.rooms [rawMissingName] = LoadedJson.notArray ∨
      ∃ rs, LoadedJson.rooms [rawMissingName] = LoadedJson.rooms rs ∧
        ∃ r ∈ rs, hasRequired r = false) ∧
    handleFileChange (LoadedJson.rooms [rawMissingName]) initialApp
      = (initialApp, true) := by
  have hb : LoadedJson.rooms [rawMissingName] = LoadedJson.notArray ∨
      ∃ rs, LoadedJson.rooms [rawMissingName] = LoadedJson.rooms rs ∧
        ∃ r ∈ rs, hasRequired r = false :=
    Or.inr ⟨[rawMissingName], rfl, rawMissingName, by simp, by decide⟩
  exact ⟨hb, load_rejects_malformed _ _ hb⟩

/-- A wall feature whose `position` (2) is far outside `[0,1]`. -/
def badFeature : WallFeature :=
  { id := "f1", type := FeatureType.window, wall := Wall.top,
    position := 2, width := 60 }

/-- A fully-populated room record carrying `badFeature`. -/
def rawBadPos : RawRoom :=
  { id := some "r1", name := some "Loaded", x := some 0, y := some 0,
    width := some 100, height := some 100, color := some "#fff",
    zIndex := some 0, features := some [badFeature], locked := some false }

/-- Claim C8 counterexample: loading a file whose only room carries a
feature with `position = 2` succeeds without any alert, and the in-memory
state afterwards contains that out-of-range position unchanged — the load
path does not clamp `position` to `[0,1]`. -/
theorem load_position_unclamped_cex :
    (handleFileChange (LoadedJson.rooms [rawBadPos]) initialApp).2 = false ∧
    ¬ (∀ r ∈ ((handleFileChange (LoadedJson.rooms [rawBadPos])
          initialApp).1).hist.state,
        ∀ f ∈ r.features, 0 ≤ f.position ∧ f.position ≤ 1) := by
  have hall : [rawBadPos].all hasRequired = true := by decide
  have hstate : ((handleFileChange (LoadedJson.rooms [rawBadPos])
      initialApp).1).hist.state = [sanitizeRoom rawBadPos] := by
    simp [handleFileChange, hall, HistoryState.state_setState_false]
  refine ⟨rfl, fun hall2 => ?_⟩
  have hm := hall2 (sanitizeRoom rawBadPos)
    (by rw [hstate]; exact List.mem_singleton.mpr rfl)
    (sanitizeFeature badFeature)
    (by simp [sanitizeRoom, rawBadPos])
  have hpos : (sanitizeFeature badFeature).position = 2 := rfl
  rw [hpos] at hm
  norm_num at hm

/-- Claim C8 (amended): a successful load writes `rs.map sanitizeRoom` with
no alert, and sanitization passes every feature's `position` through
unchanged (only `width` is rounded), so positions outside `[0,1]` in the
file survive into memory. -/
theorem load_position_passthrough (rs : List RawRoom) (s : AppState)
    (hok : rs.all hasRequired = true) :
    ((handleFileChange (LoadedJson.rooms rs) s).1).hist.state
      = rs.map sanitizeRoom ∧
    (handleFileChange (LoadedJson.rooms rs) s).2 = false ∧
    ∀ r : RawRoom, ((sanitizeRoom r).features.map fun f => f.position)
      = ((r.features.getD []).map fun f => f.position) := by
  refine ⟨?_, ?_, fun r => ?_⟩
  · simp [handleFileChange, hok, HistoryState.state_setState_false]
  · simp [handleFileChange, hok]
  · show (((r.features.getD []).map sanitizeFeature).map fun f => f.position)
      = ((r.features.getD []).map fun f => f.position)
    rw [List.map_map]
    rfl

/-- Witness for C8's amended statement at the `rawBadPos` file. -/
theorem load_position_passthrough_witness :
    [rawBadPos].all hasRequired = true ∧
    ((handleFileChange (LoadedJson.rooms [rawBadPos]) initialApp).1).hist.state
      = [rawBadPos].map sanitizeRoom :=
  ⟨by decide, (load_position_passthrough [rawBadPos] initialApp (by decide)).1⟩

/-- A fully-populated, feature-free room record. -/
def rawLoaded : RawRoom :=
  { id := some "r9", name := some "Loaded", x := some 5, y := some 5,
    width := some 50, height := some 50, color := some "#fff",
    zIndex := some 0, features := Option.none, locked := Option.none }

/-- An app state whose history holds three snapshots with the index rolled
back to 0 (reached by two appends followed by two undos). -/
def sDeep : AppState :=
  { initialApp with
      hist := ((((⟨[initialRooms], 0⟩ : HistoryState (List Room)).setState
        [] false).setState [] false).undo).undo }

/-- Claim C10 counterexample: a successful load into a state with redoable
future (history length 3, index 0) does not grow the history by one — the
write truncates the redo tail, leaving 2 entries instead of 4. -/
theorem load_truncates_redo_cex :
    (handleFileChange (LoadedJson.rooms [rawLoaded]) sDeep).2 = false ∧
    sDeep.hist.history.length = 3 ∧
    sDeep.hist.index = 0 ∧
    (handleFileChange (LoadedJson.rooms [rawLoaded])
      sDeep).1.hist.history.length = 2 ∧
    ¬ ((handleFileChange (LoadedJson.rooms [rawLoaded])
          sDeep).1.hist.history.length = sDeep.hist.history.length + 1) := by
  decide

/-- Claim C10 (amended): a successful load performs one non-overwrite write:
the history becomes the first `index+1` snapshots followed by the sanitized
room list, the index advances to the new last slot, one `undo()` lands on
the room list that was current before the load, and when the index was
already at the last slot (no redoable future) the length grows by exactly
one. -/
theorem load_appends_single_step (rs : List RawRoom) (s : AppState)
    (hok : rs.all hasRequired = true)
    (hidx : s.hist.index < s.hist.history.length) :
    (handleFileChange (LoadedJson.rooms rs) s).1.hist.history
      = s.hist.history.take (s.hist.index + 1) ++ [rs.map sanitizeRoom] ∧
    (handleFileChange (LoadedJson.rooms rs) s).1.hist.index
      = s.hist.index + 1 ∧
    (handleFileChange (LoadedJson.rooms rs) s).1.hist.index
      = (handleFileChange (LoadedJson.rooms rs) s).1.hist.history.length - 1 ∧
    (handleFileChange (LoadedJson.rooms rs) s).1.hist.undo.state
      = s.hist.state ∧
    (s.hist.index = s.hist.history.length - 1 →
      (handleFileChange (LoadedJson.rooms rs) s).1.hist.history.length
        = s.hist.history.length + 1) := by
  have hfc : (handleFileChange (LoadedJson.rooms rs) s).1.hist
      = s.hist.setState (rs.map sanitizeRoom) false := by
    simp [handleFileChange, hok]
  have htake : (s.hist.history.take (s.hist.index + 1)).length
      = s.hist.index + 1 := by
    rw [List.length_take]
    omega
  have hhist : (s.hist.setState (rs.map sanitizeRoom) false).history
      = s.hist.history.take (s.hist.index + 1) ++ [rs.map sanitizeRoom] := rfl
  have hindex : (s.hist.setState (rs.map sanitizeRoom) false).index
      = s.hist.index + 1 := by
    show (s.hist.history.take (s.hist.index + 1)
        ++ [rs.map sanitizeRoom]).length - 1 = s.hist.index + 1
    rw [List.length_append, htake]
    simp
  refine ⟨by rw [hfc]; exact hhist, by rw [hfc, hindex], ?_, ?_, ?_⟩
  · rw [hfc, hindex, hhist, List.length_append, htake]
    simp
  · rw [hfc]
    unfold HistoryState.undo
    rw [hindex]
    simp only [Nat.succ_pos, if_pos, hhist]
    show (s.hist.history.take (s.hist.index + 1)
        ++ [rs.map sanitizeRoom]).getD (s.hist.index + 1 - 1) default
      = s.hist.state
    rw [Nat.add_sub_cancel, List.getD_eq_getElem?_getD,
      List.getElem?_append_left (by omega),
      List.getElem?_take_of_lt (by omega), HistoryState.state,
      List.getD_eq_getElem?_getD]
  · intro hlast
    rw [hfc, hhist, List.length_append, htake]
    simp only [List.length_singleton]
    omega

/-- Witness for C10's amended statement: loading `rawLoaded` into the
initial state (history length 1, index 0) appends one entry, moves the
index to 1, and one undo lands back on the initial room list. -/
theorem load_appends_single_step_witness :
    [rawLoaded].all hasRequired = true ∧
    initialApp.hist.index < initialApp.hist.history.length ∧
    (handleFileChange (LoadedJson.rooms [rawLoaded])
      initialApp).1.hist.index = 1 ∧
    (handleFileChange (LoadedJson.rooms [rawLoaded])
      initialApp).1.hist.undo.state = initialApp.hist.state := by
  have h := load_appends_single_step [rawLoaded] initialApp
    (by decide) (by decide)
  exact ⟨by decide, by decide, h.2.1, h.2.2.2.1⟩

/-- The target room id of an in-progress move/resize, if any. -/
def actionTarget : ActionState → Option String
  | ActionState.moving tid _ _ => some tid
  | ActionState.resizing tid _ _ => some tid
  | _ => Option.none

/-- The uuid a `mouseUp` event may consume is distinct from `lid` (the
`crypto.randomUUID` freshness assumption, relative to one room id). -/
def eventUuidAvoids (lid : String) : Event → Prop
  | Event.mouseUp _ uuid => uuid ≠ lid
  | _ => True

/-- Invariant: every current room carrying `L`'s id is exactly `L`, and no
in-progress gesture targets `L`'s id. -/
def LockedIntact (L : Room) (s : AppState) : Prop :=
  (∀ r ∈ s.hist.state, r.id = L.id → r = L) ∧
  actionTarget s.actionState ≠ some L.id

lemma resizeRoomStep_id (h : ResizeHandle) (sp : Point) (r : Room) :
    (resizeRoomStep h sp r).id = r.id := by
  cases h <;> rfl

/-- A map that only rewrites rooms whose id is `tid` (and preserves ids)
keeps every room with a different id intact. -/
lemma targeted_map_keeps (L : Room) (tid : String) (g : Room → Room)
    (hg : ∀ r, (g r).id = r.id) (hne : tid ≠ L.id) (rooms : List Room)
    (hI : ∀ r ∈ rooms, r.id = L.id → r = L) :
    ∀ r ∈ rooms.map (fun r => if r.id == tid then g r else r),
      r.id = L.id → r = L := by
  intro r hr hid
  obtain ⟨r0, hr0, hmap⟩ := List.mem_map.mp hr
  by_cases hb : r0.id = tid
  · exfalso
    apply hne
    subst hmap
    rw [if_pos (by simpa using hb)] at hid
    rw [hg r0] at hid
    rw [← hb, hid]
  · subst hmap
    rw [if_neg (by simpa using hb)] at hid ⊢
    exact hI r0 hr0 hid

lemma intact_overwrite (L : Room) (h : HistoryState (List Room))
    (v : List Room) (hv : ∀ r ∈ v, r.id = L.id → r = L) :
    ∀ r ∈ (h.setState v true).state, r.id = L.id → r = L := by
  rw [HistoryState.state_setState_true]
  split_ifs
  · exact hv
  · intro r hr hid
    exact absurd hr (List.not_mem_nil r)

lemma mouseDown_intact (L : Room) (s : AppState) (b : ℕ) (c : Point)
    (hI : LockedIntact L s) : LockedIntact L (handleMouseDown s b c) := by
  obtain ⟨h1, h2⟩ := hI
  unfold handleMouseDown
  split_ifs
  · exact ⟨h1, h2⟩
  · exact ⟨h1, by simp [actionTarget]⟩
  · exact ⟨h1, h2⟩
  · exact ⟨h1, h2⟩

/-- One event dispatch preserves `LockedIntact` for any locked room `L`
(assuming the uuid a room-creating `mouseUp` consumes is not `L`'s id). -/
lemma step_locked_intact (L : Room) (hL : L.locked = true) (s : AppState)
    (e : Event) (hI : LockedIntact L s) (he : eventUuidAvoids L.id e) :
    LockedIntact L (step s e) := by
  obtain ⟨h1, h2⟩ := hI
  cases e with
  | canvasDown b c => exact mouseDown_intact L s b c ⟨h1, h2⟩
  | wheel d c => exact ⟨h1, h2⟩
  | roomDown id b c =>
      simp only [step]
      cases hf : s.hist.state.find? (fun r => r.id == id) with
      | none => exact ⟨h1, h2⟩
      | some room =>
          have hmem : room ∈ s.hist.state := List.mem_of_find?_eq_some hf
          show LockedIntact L
            (if s.mode = Mode.draw ∨ room.locked = true then
              handleMouseDown (handleRoomMouseDown s room b c) b c
            else handleRoomMouseDown s room b c)
          by_cases hguard : s.mode = Mode.draw ∨ room.locked = true
          · rw [if_pos hguard]
            have hrmd : handleRoomMouseDown s room b c = s := by
              unfold handleRoomMouseDown
              rw [if_pos hguard]
            rw [hrmd]
            exact mouseDown_intact L s b c ⟨h1, h2⟩
          · rw [if_neg hguard]
            unfold handleRoomMouseDown
            rw [if_neg hguard]
            by_cases hb : b = 0
            · rw [if_pos hb]
              refine ⟨h1, fun hcontra => ?_⟩
              have hcid : room.id = L.id := by
                simpa [actionTarget] using hcontra
              have hroom : room = L := h1 room hmem hcid
              exact hguard (Or.inr (by rw [hroom]; exact hL))
            · rw [if_neg hb]
              exact ⟨h1, h2⟩
  | resizeStart id handle b =>
      simp only [step]
      cases hf : s.hist.state.find? (fun r => r.id == id) with
      | none => exact ⟨h1, h2⟩
      | some room =>
          have hmem : room ∈ s.hist.state := List.mem_of_find?_eq_some hf
          show LockedIntact L (handleResizeStart s room handle b)
          unfold handleResizeStart
          by_cases hguard : s.mode ≠ Mode.select ∨ b ≠ 0 ∨ room.locked = true
          · rw [if_pos hguard]
            exact ⟨h1, h2⟩
          · rw [if_neg hguard]
            push_neg at hguard
            refine ⟨h1, fun hcontra => ?_⟩
            have hcid : room.id = L.id := by simpa [actionTarget] using hcontra
            have hroom : room = L := h1 room hmem hcid
            exact hguard.2.2 (by rw [hroom]; exact hL)
  | mouseMove c =>
      simp only [step]
      unfold handleMouseMove
      by_cases hp : s.isPanning = true
      · rw [if_pos hp]
        exact ⟨h1, h2⟩
      · rw [if_neg hp]
        cases ha : s.actionState with
        | none => exact ⟨h1, h2⟩
        | drawing sp => exact ⟨h1, by simp [actionTarget]⟩
        | moving tid off d =>
            have htid : tid ≠ L.id := by
              intro hcontra
              apply h2
              rw [ha, hcontra]
              rfl
            refine ⟨?_, fun hcontra => htid (by simpa [actionTarget] using hcontra)⟩
            refine intact_overwrite L s.hist _ ?_
            show ∀ r ∈ s.hist.state.map (fun r =>
                if r.id == tid then
                  { r with
                      x := snapToGrid ((getMouseWorldPos s.viewTransform c).x - off.x),
                      y := snapToGrid ((getMouseWorldPos s.viewTransform c).y - off.y) }
                else r), r.id = L.id → r = L
            exact targeted_map_keeps L tid
              (fun r => { r with
                  x := snapToGrid ((getMouseWorldPos s.viewTransform c).x - off.x),
                  y := snapToGrid ((getMouseWorldPos s.viewTransform c).y - off.y) })
              (fun r => rfl) htid s.hist.state h1
        | resizing tid handle d =>
            have htid : tid ≠ L.id := by
              intro hcontra
              apply h2
              rw [ha, hcontra]
              rfl
            refine ⟨?_, fun hcontra => htid (by simpa [actionTarget] using hcontra)⟩
            refine intact_overwrite L s.hist _ ?_
            show ∀ r ∈ s.hist.state.map (fun r =>
                if r.id == tid then
                  resizeRoomStep handle
                    (snapPoint (getMouseWorldPos s.viewTransform c)) r
                else r), r.id = L.id → r = L
            exact targeted_map_keeps L tid
              (fun r => resizeRoomStep handle
                (snapPoint (getMouseWorldPos s.viewTransform c)) r)
              (fun r => resizeRoomStep_id _ _ r) htid s.hist.state h1
  | mouseUp c uuid =>
      have hu : uuid ≠ L.id := he
      simp only [step]
      unfold handleMouseUp
      cases hps : s.isPanning <;>
        simp only [hps, Bool.false_eq_true, if_false, if_true] <;>
        cases ha : s.actionState
      case false.none => exact ⟨h1, by simp [actionTarget]⟩
      case true.none => exact ⟨h1, by simp [actionTarget]⟩
      case false.drawing sp =>
        dsimp only []
        split_ifs with hsz
        · refine ⟨?_, by simp [actionTarget]⟩
          intro r hr hid
          have hr' : r ∈ (s.hist.setState (s.hist.state ++ [mkDrawnRoom
              s.hist.state sp (snapPoint (getMouseWorldPos s.viewTransform c))
              uuid]) false).state := hr
          rw [HistoryState.state_setState_false] at hr'
          rcases List.mem_append.mp hr' with hrl | hrr
          · exact h1 r hrl hid
          · rw [List.mem_singleton.mp hrr] at hid
            exact absurd hid hu
        · exact ⟨h1, by simp [actionTarget]⟩
      case true.drawing sp =>
        dsimp only []
        split_ifs with hsz
        · refine ⟨?_, by simp [actionTarget]⟩
          intro r hr hid
          have hr' : r ∈ (s.hist.setState (s.hist.state ++ [mkDrawnRoom
              s.hist.state sp (snapPoint (getMouseWorldPos s.viewTransform c))
              uuid]) false).state := hr
          rw [HistoryState.state_setState_false] at hr'
          rcases List.mem_append.mp hr' with hrl | hrr
          · exact h1 r hrl hid
          · rw [List.mem_singleton.mp hrr] at hid
            exact absurd hid hu
        · exact ⟨h1, by simp [actionTarget]⟩
      case false.moving tid off d =>
        cases d
        · exact ⟨h1, by simp [actionTarget]⟩
        · refine ⟨?_, by simp [actionTarget]⟩
          intro r hr hid
          have hr' : r ∈ (s.hist.setState s.hist.state false).state := hr
          rw [HistoryState.state_setState_false] at hr'
          exact h1 r hr' hid
      case true.moving tid off d =>
        cases d
        · exact ⟨h1, by simp [actionTarget]⟩
        · refine ⟨?_, by simp [actionTarget]⟩
          intro r hr hid
          have hr' : r ∈ (s.hist.setState s.hist.state false).state := hr
          rw [HistoryState.state_setState_false] at hr'
          exact h1 r hr' hid
      case false.resizing tid hdl d =>
        cases d
        · exact ⟨h1, by simp [actionTarget]⟩
        · refine ⟨?_, by simp [actionTarget]⟩
          intro r hr hid
          have hr' : r ∈ (s.hist.setState s.hist.state false).state := hr
          rw [HistoryState.state_setState_false] at hr'
          exact h1 r hr' hid
      case true.resizing tid hdl d =>
        cases d
        · exact ⟨h1, by simp [actionTarget]⟩
        · refine ⟨?_, by simp [actionTarget]⟩
          intro r hr hid
          have hr' : r ∈ (s.hist.setState s.hist.state false).state := hr
          rw [HistoryState.state_setState_false] at hr'
          exact h1 r hr' hid

/-- `LockedIntact` is preserved by any event trace whose created uuids avoid
the locked room's id. -/
lemma run_locked_intact (L : Room) (hL : L.locked = true) :
    ∀ (events : List Event) (s : AppState), LockedIntact L s →
      (∀ e ∈ events, eventUuidAvoids L.id e) →
      LockedIntact L (run s events) := by
  intro events
  induction events with
  | nil => exact fun s hI _ => hI
  | cons e es ih =>
      intro s hI hav
      exact ih (step s e)
        (step_locked_intact L hL s e hI (hav e (List.mem_cons_self e es)))
        (fun e' he' => hav e' (List.mem_cons_of_mem e he'))

/-- Claim C6: pointer interactions never touch a locked room.  Given the
id-uniqueness invariant (`LockedIntact`): (a) in select mode, a pointer-down
on the locked room's body performs no history write and enters no
move/resize state; (b) a pointer-down on one of its resize handles changes
nothing at all; (c) along any pointer-event trace (with room-creation uuids
distinct from the locked room's id), every room carrying the locked room's
id — its `x`, `y`, `width`, `height`, `zIndex`, `features` and all other
fields included — is still exactly the original locked room. -/
theorem locked_room_pointer_immutable (L : Room) (hL : L.locked = true)
    (s : AppState) (hI : LockedIntact L s) :
    (s.mode = Mode.select → ∀ b c,
      (step s (Event.roomDown L.id b c)).hist = s.hist ∧
      (step s (Event.roomDown L.id b c)).actionState = s.actionState) ∧
    (∀ h b, step s (Event.resizeStart L.id h b) = s) ∧
    (∀ events, (∀ e ∈ events, eventUuidAvoids L.id e) →
      ∀ r ∈ (run s events).hist.state, r.id = L.id → r = L) := by
  refine ⟨fun hmode b c => ?_, fun h b => ?_, fun events hav =>
    (run_locked_intact L hL events s hI hav).1⟩
  · simp only [step]
    cases hf : s.hist.state.find? (fun r => r.id == L.id) with
    | none => exact ⟨rfl, rfl⟩
    | some room =>
        have hmem : room ∈ s.hist.state := List.mem_of_find?_eq_some hf
        have hid : room.id = L.id := by simpa using List.find?_some hf
        have hroom : room = L := hI.1 room hmem hid
        show ((if s.mode = Mode.draw ∨ room.locked = true then
            handleMouseDown (handleRoomMouseDown s room b c) b c
          else handleRoomMouseDown s room b c)).hist = s.hist ∧
          ((if s.mode = Mode.draw ∨ room.locked = true then
            handleMouseDown (handleRoomMouseDown s room b c) b c
          else handleRoomMouseDown s room b c)).actionState = s.actionState
        have hguard : s.mode = Mode.draw ∨ room.locked = true :=
          Or.inr (by rw [hroom]; exact hL)
        rw [if_pos hguard]
        have hrmd : handleRoomMouseDown s room b c = s := by
          unfold handleRoomMouseDown
          rw [if_pos hguard]
        rw [hrmd]
        unfold handleMouseDown
        by_cases hb1 : b = 1
        · rw [if_pos hb1]
          exact ⟨rfl, rfl⟩
        · rw [if_neg hb1, hmode,
            if_neg (by simp : ¬ (Mode.select = Mode.draw))]
          by_cases hb0 : b = 0
          · rw [if_pos hb0]
            exact ⟨rfl, rfl⟩
          · rw [if_neg hb0]
            exact ⟨rfl, rfl⟩
  · simp only [step]
    cases hf : s.hist.state.find? (fun r => r.id == L.id) with
    | none => rfl
    | some room =>
        have hmem : room ∈ s.hist.state := List.mem_of_find?_eq_some hf
        have hid : room.id = L.id := by simpa using List.find?_some hf
        have hroom : room = L := hI.1 room hmem hid
        show handleResizeStart s room h b = s
        unfold handleResizeStart
        rw [if_pos (Or.inr (Or.inr (by rw [hroom]; exact hL)))]

/-- The kitchen room with `locked := true`. -/
def kitchenLocked : Room :=
  { id := "kitchen-1", name := "Kitchen", x := 350, y := 50,
    width := 150, height := 150, color := "#BFDBFE", zIndex := 1,
    features := [], locked := true }

/-- Initial rooms with the kitchen locked. -/
def lockedRooms : List Room :=
  [ { id := "living-room-1", name := "Living Room", x := 50, y := 50,
      width := 300, height := 200, color := "#DBEAFE", zIndex := 0,
      features := [], locked := false },
    kitchenLocked ]

/-- The initial app state over `lockedRooms`. -/
def sLocked : AppState :=
  { initialApp with hist := { history := [lockedRooms], index := 0 } }

/-- An attempted drag of the locked kitchen. -/
def lockedEvs : List Event :=
  [Event.roomDown "kitchen-1" 0 ⟨360, 60⟩, Event.mouseMove ⟨400, 100⟩,
   Event.mouseUp ⟨400, 100⟩ "w-uuid"]

/-- Witness for C6: a pointer-down on the locked kitchen (body and resize
handle) leaves history and action state untouched, and after a full
attempted drag the kitchen is still exactly its original locked self. -/
theorem locked_room_pointer_immutable_witness :
    kitchenLocked.locked = true ∧
    sLocked.mode = Mode.select ∧
    (step sLocked (Event.roomDown kitchenLocked.id 0 ⟨360, 60⟩)).hist
      = sLocked.hist ∧
    step sLocked (Event.resizeStart kitchenLocked.id ResizeHandle.topLeft 0)
      = sLocked ∧
    (run sLocked lockedEvs).hist.state.find?
      (fun r => r.id == kitchenLocked.id) = some kitchenLocked := by
  have hI : LockedIntact kitchenLocked sLocked := ⟨by decide, by decide⟩
  have h := locked_room_pointer_immutable kitchenLocked rfl sLocked hI
  refine ⟨rfl, rfl, (h.1 rfl 0 ⟨360, 60⟩).1, h.2.1 ResizeHandle.topLeft 0, ?_⟩
  decide
